import Mathlib

set_option maxHeartbeats 1000000
set_option linter.unusedVariables false

/-!
Shallow embedding of the 6502-style CPU core in `src/src/cpu.rs`.

Machine integers are modelled as `Nat` with explicit `% 2^w` where the Rust
code wraps (`wrapping_add`, `as u8` / `as u16` casts).  Rust panics (slice
index out of bounds, `Option::unwrap` on `None`, the `panic!` in
`get_operand_address`, the `todo!` arm of `run`) are modelled as the error
case of an `Except` monad, so that a fault is a distinguishable outcome of
the embedded functions.  The unbounded `loop` in `CPU::run` is modelled with
explicit fuel; running out of fuel is a separate outcome, distinct from the
halt reached at a BRK opcode.
-/

/-- Addressing modes of the emulated core (`enum AddressingMode` in the source). -/
inductive AddressingMode where
  | Immediate
  | ZeroPage
  | ZeroPage_X
  | ZeroPage_Y
  | Absolute
  | Absolute_X
  | Absolute_Y
  | Indirect_X
  | Indirect_Y
  | NoneAddressing

deriving instance DecidableEq for AddressingMode

/-- Ways the emulated code can abort, one per Rust panic site in the source. -/
inductive PanicKind where
  | indexOutOfBounds
  | unwrapNone
  | unsupportedAddressingMode
  | todoUnreachable

deriving instance DecidableEq for PanicKind

/-- Computations that may panic (Rust panics become `Except.error`). -/
abbrev EmuM (α : Type) : Type := Except PanicKind α

/-- One entry of the opcode table (`struct OpCode` in the source). -/
structure OpCode where
  opcode : Nat
  name : String
  takes_bytes : Nat
  takes_cycles : Nat
  adressing_mode : AddressingMode

/-- The opcode registry (`OPCODES` in the source), in source order. -/
def OPCODES : List OpCode := [
  ⟨0xA9, "LDA", 2, 2, AddressingMode.Immediate⟩,
  ⟨0xA5, "LDA", 2, 3, AddressingMode.ZeroPage⟩,
  ⟨0xB5, "LDA", 2, 4, AddressingMode.ZeroPage_X⟩,
  ⟨0xAD, "LDA", 2, 4, AddressingMode.Absolute⟩,
  ⟨0xBD, "LDA", 2, 4, AddressingMode.Absolute_X⟩,
  ⟨0xB9, "LDA", 2, 4, AddressingMode.Absolute_Y⟩,
  ⟨0xA1, "LDA", 2, 6, AddressingMode.Indirect_X⟩,
  ⟨0xB1, "LDA", 2, 5, AddressingMode.Indirect_Y⟩,
  ⟨0x85, "STA", 2, 3, AddressingMode.ZeroPage⟩,
  ⟨0x95, "STA", 2, 4, AddressingMode.ZeroPage_X⟩,
  ⟨0x8D, "STA", 3, 4, AddressingMode.Absolute⟩,
  ⟨0x9D, "STA", 3, 5, AddressingMode.Absolute_X⟩,
  ⟨0x99, "STA", 3, 5, AddressingMode.Absolute_Y⟩,
  ⟨0x81, "STA", 2, 6, AddressingMode.Indirect_X⟩,
  ⟨0x91, "STA", 2, 6, AddressingMode.Indirect_Y⟩,
  ⟨0xAA, "TAX", 1, 2, AddressingMode.NoneAddressing⟩,
  ⟨0xA8, "TAY", 1, 2, AddressingMode.NoneAddressing⟩,
  ⟨0xE8, "INX", 1, 2, AddressingMode.NoneAddressing⟩,
  ⟨0x00, "BRK", 1, 7, AddressingMode.NoneAddressing⟩]

/-- Linear scan of the registry for the first entry with the given opcode byte
(`find_opcode_by_instruction` in the source). -/
def find_opcode_by_instruction (instruction : Nat) : Option OpCode :=
  OPCODES.find? (fun opcode => opcode.opcode == instruction)

/-- Machine state (`struct CPU` in the source).  The `memory : [u8; 0xFFFF]`
array is modelled as a function from addresses to byte values; index bounds
are checked by `mem_read` / `mem_write` below, as Rust checks slice indices. -/
structure CPU where
  register_a : Nat
  status : Nat
  program_counter : Nat
  register_x : Nat
  register_y : Nat
  memory : Nat → Nat

/-- Size of the memory array in the source: `[u8; 0xFFFF]`, so the valid
indices are `0x0000 ..= 0xFFFE`. -/
def MEM_SIZE : Nat := 0xFFFF

/-- Freshly constructed machine (`CPU::new`). -/
def CPU.new : CPU :=
  { register_a := 0
    status := 0
    program_counter := 0
    register_x := 0
    register_y := 0
    memory := fun _ => 0 }

/-- `CPU::mem_read`: index the memory array; an out-of-range index is a Rust
panic. -/
def CPU.mem_read (cpu : CPU) (addr : Nat) : EmuM Nat :=
  if addr < MEM_SIZE then Except.ok (cpu.memory addr)
  else Except.error PanicKind.indexOutOfBounds

/-- `CPU::mem_read_u16`: low byte at `pos`, high byte at `pos + 1`, combined
as `(hi <<< 8) ||| lo`. -/
def CPU.mem_read_u16 (cpu : CPU) (pos : Nat) : EmuM Nat := do
  let lo ← cpu.mem_read pos
  let hi ← cpu.mem_read (pos + 1)
  return (hi <<< 8) ||| lo

/-- `CPU::mem_write`: store a byte; an out-of-range index is a Rust panic. -/
def CPU.mem_write (cpu : CPU) (addr data : Nat) : EmuM CPU :=
  if addr < MEM_SIZE then
    Except.ok { cpu with memory := fun a => if a = addr then data else cpu.memory a }
  else Except.error PanicKind.indexOutOfBounds

/-- `CPU::mem_write_u16`: low byte (`data &&& 0xff`) at `pos`, high byte
(`(data >>> 8) as u8`) at `pos + 1`. -/
def CPU.mem_write_u16 (cpu : CPU) (pos data : Nat) : EmuM CPU := do
  let hi := (data >>> 8) % 256
  let lo := data &&& 0xff
  let cpu ← cpu.mem_write pos lo
  cpu.mem_write (pos + 1) hi

/-- `CPU::reset`: zero accumulator, index-X and status, then load the program
counter from the reset vector at `0xFFFC`. -/
def CPU.reset (cpu : CPU) : EmuM CPU := do
  let cpu := { cpu with register_a := 0, register_x := 0, status := 0 }
  let pc ← cpu.mem_read_u16 0xFFFC
  return { cpu with program_counter := pc }

/-- `CPU::load`: copy the program into memory starting at `0x8000`
(`copy_from_slice`, which panics when the slice range exceeds the array),
then write `0x8000` to the reset vector at `0xFFFC`. -/
def CPU.load (cpu : CPU) (program : List Nat) : EmuM CPU :=
  if 0x8000 + program.length ≤ MEM_SIZE then do
    let cpu := { cpu with memory := fun a =>
      (if 0x8000 ≤ a ∧ a < 0x8000 + program.length then program.getD (a - 0x8000) 0
       else cpu.memory a) }
    cpu.mem_write_u16 0xFFFC 0x8000
  else Except.error PanicKind.indexOutOfBounds

/-- `CPU::get_operand_address`: resolve the effective address for an
addressing mode.  `wrapping_add` on `u8` is `% 256`, on `u16` is `% 65536`;
the `NoneAddressing` arm is a Rust `panic!`. -/
def CPU.get_operand_address (cpu : CPU) (mode : AddressingMode) : EmuM Nat :=
  match mode with
  | AddressingMode.Immediate => Except.ok cpu.program_counter
  | AddressingMode.ZeroPage => cpu.mem_read cpu.program_counter
  | AddressingMode.Absolute => cpu.mem_read_u16 cpu.program_counter
  | AddressingMode.ZeroPage_X => do
      let pos ← cpu.mem_read cpu.program_counter
      return (pos + cpu.register_x) % 256
  | AddressingMode.ZeroPage_Y => do
      let pos ← cpu.mem_read cpu.program_counter
      return (pos + cpu.register_y) % 256
  | AddressingMode.Absolute_X => do
      let base ← cpu.mem_read_u16 cpu.program_counter
      return (base + cpu.register_x) % 65536
  | AddressingMode.Absolute_Y => do
      let base ← cpu.mem_read_u16 cpu.program_counter
      return (base + cpu.register_y) % 65536
  | AddressingMode.Indirect_X => do
      let base ← cpu.mem_read cpu.program_counter
      let ptr := (base + cpu.register_x) % 256
      let lo ← cpu.mem_read ptr
      let hi ← cpu.mem_read ((ptr + 1) % 256)
      return (hi <<< 8) ||| lo
  | AddressingMode.Indirect_Y => do
      let base ← cpu.mem_read cpu.program_counter
      let lo ← cpu.mem_read base
      let hi ← cpu.mem_read ((base + 1) % 256)
      let deref_base := (hi <<< 8) ||| lo
      return (deref_base + cpu.register_y) % 65536
  | AddressingMode.NoneAddressing =>
      Except.error PanicKind.unsupportedAddressingMode

/-- `CPU::update_zero_and_negative_flags`, extracted as a pure function of
the old status byte and the result byte: set/clear bit 1 (Zero) from
`result == 0`, set/clear bit 7 (Negative) from `result &&& 0x80`. -/
def update_zero_and_negative_flags (status result : Nat) : Nat :=
  let status := if result = 0 then status ||| 0b00000010 else status &&& 0b11111101
  if result &&& 0b10000000 ≠ 0 then status ||| 0b10000000 else status &&& 0b01111111

/-- `CPU::lda`: load the byte at the resolved address into the accumulator and
update the flags from the accumulator. -/
def CPU.lda (cpu : CPU) (mode : AddressingMode) : EmuM CPU := do
  let addr ← cpu.get_operand_address mode
  let value ← cpu.mem_read addr
  let cpu := { cpu with register_a := value }
  return { cpu with status := update_zero_and_negative_flags cpu.status cpu.register_a }

/-- `CPU::sta`: store the accumulator at the resolved address. -/
def CPU.sta (cpu : CPU) (mode : AddressingMode) : EmuM CPU := do
  let addr ← cpu.get_operand_address mode
  cpu.mem_write addr cpu.register_a

/-- `CPU::tax`: copy the accumulator into index-X, update flags from index-X. -/
def CPU.tax (cpu : CPU) : CPU :=
  let cpu := { cpu with register_x := cpu.register_a }
  { cpu with status := update_zero_and_negative_flags cpu.status cpu.register_x }

/-- `CPU::tay`: copy the accumulator into index-Y; the source then updates the
flags from `self.register_x` (not from the freshly written index-Y). -/
def CPU.tay (cpu : CPU) : CPU :=
  let cpu := { cpu with register_y := cpu.register_a }
  { cpu with status := update_zero_and_negative_flags cpu.status cpu.register_x }

/-- `CPU::inx`: increment index-X with 8-bit wraparound, update flags from
index-X. -/
def CPU.inx (cpu : CPU) : CPU :=
  let cpu := { cpu with register_x := (cpu.register_x + 1) % 256 }
  { cpu with status := update_zero_and_negative_flags cpu.status cpu.register_x }

/-- Outcome of one iteration of the `loop` in `CPU::run`: either keep looping
with the new state, or return because a BRK opcode was executed. -/
inductive StepResult where
  | cont (cpu : CPU)
  | halt (cpu : CPU)

/-- One iteration of the `loop` body of `CPU::run`: fetch the opcode byte,
look it up (`.unwrap()` on a missing entry is a Rust panic), advance the
program counter past the opcode byte, dispatch on the mnemonic string, and
for LDA/STA advance the program counter by `takes_bytes - 1`.  The catch-all
arm is the source's `todo!()`. -/
def CPU.step (cpu : CPU) : EmuM StepResult := do
  let instruction ← cpu.mem_read cpu.program_counter
  let op_code ← match find_opcode_by_instruction instruction with
    | some oc => Except.ok oc
    | none => Except.error PanicKind.unwrapNone
  let cpu := { cpu with program_counter := (cpu.program_counter + 1) % 65536 }
  match op_code.name with
  | "LDA" => do
      let cpu ← cpu.lda op_code.adressing_mode
      return StepResult.cont
        { cpu with program_counter :=
            (cpu.program_counter + (op_code.takes_bytes - 1)) % 65536 }
  | "STA" => do
      let cpu ← cpu.sta op_code.adressing_mode
      return StepResult.cont
        { cpu with program_counter :=
            (cpu.program_counter + (op_code.takes_bytes - 1)) % 65536 }
  | "TAX" => return StepResult.cont cpu.tax
  | "TAY" => return StepResult.cont cpu.tay
  | "INX" => return StepResult.cont cpu.inx
  | "BRK" => return StepResult.halt cpu
  | _ => Except.error PanicKind.todoUnreachable

/-- Outcome of `CPU::run`: halted at a BRK opcode, or the fuel bound was
reached before the loop returned. -/
inductive RunResult where
  | halted (cpu : CPU)
  | outOfFuel (cpu : CPU)

/-- `CPU::run`, with explicit fuel bounding the number of loop iterations. -/
def CPU.run (cpu : CPU) (fuel : Nat) : EmuM RunResult :=
  match fuel with
  | 0 => Except.ok (RunResult.outOfFuel cpu)
  | fuel + 1 => do
      match ← cpu.step with
      | StepResult.halt c => Except.ok (RunResult.halted c)
      | StepResult.cont c => c.run fuel

/-- `CPU::load_and_run` = `load` then `reset` then `run`. -/
def CPU.load_and_run (cpu : CPU) (program : List Nat) (fuel : Nat) : EmuM RunResult := do
  let cpu ← cpu.load program
  let cpu ← cpu.reset
  cpu.run fuel

/-- Opcode byte constant from `mod cpu_constants` in the source. -/
def LDA_IMMEDIATE : Nat := 0xA9

/-- Opcode byte constant from `mod cpu_constants` in the source. -/
def LDA_ZP : Nat := 0xA5

/-- Opcode byte constant from `mod cpu_constants` in the source. -/
def LDA_ABS : Nat := 0xAD

/-- Opcode byte constant from `mod cpu_constants` in the source. -/
def TAX : Nat := 0xAA

/-- Opcode byte constant from `mod cpu_constants` in the source. -/
def TAY : Nat := 0xA8

/-- Opcode byte constant from `mod cpu_constants` in the source. -/
def INX : Nat := 0xE8

/-- Opcode byte constant from `mod cpu_constants` in the source. -/
def BRK : Nat := 0x00

/-- Project the final value of index-X out of a completed run, provided the
run halted normally (at a BRK opcode) without panicking or running out of
fuel. -/
def haltedRegX : EmuM RunResult → Option Nat
  | Except.ok (RunResult.halted c) => some c.register_x
  | _ => none

/-- Project the program counter out of the outcome of one loop iteration,
provided the iteration did not panic. -/
def stepPC : EmuM StepResult → Option Nat
  | Except.ok (StepResult.cont c) => some c.program_counter
  | Except.ok (StepResult.halt c) => some c.program_counter
  | _ => none

/-- Machine about to execute `LDA $8005` (absolute addressing): the three
instruction bytes `AD 05 80` sit at `0x8000 ..= 0x8002` and the program
counter points at the opcode byte. -/
def ldaAbsState : CPU :=
  { CPU.new with
      program_counter := 0x8000
      memory := fun a =>
        (if a = 0x8000 then LDA_ABS else if a = 0x8001 then 0x05
         else if a = 0x8002 then 0x80 else 0) }

/-- Machine whose every memory byte is `0x02`, a byte with no entry in the
opcode registry; the program counter points at address 0. -/
def unknownOpcodeState : CPU := { CPU.new with memory := fun _ => 0x02 }

/-- Machine about to execute a TAY opcode: every memory byte is `0xA8`. -/
def tayState : CPU :=
  { CPU.new with register_a := 0x40, register_x := 0x90, register_y := 0x07
                 memory := fun _ => TAY }

/-- Machine whose program counter is `0xFFFF`, one past the last valid memory
index. -/
def pcAtTopState : CPU := { CPU.new with program_counter := 0xFFFF }

/-- State produced by `CPU::sta` with zero-page addressing on a fresh
machine: the operand byte at address 0 is 0, so the accumulator (0) is
stored at address 0. -/
def staZpResult : CPU :=
  { CPU.new with memory := fun a => if a = 0 then CPU.new.register_a else CPU.new.memory a }

/-! ## Bit-level helper lemmas -/

/-- Bits of the Zero-flag mask `0b00000010`. -/
lemma testBit_const_two (i : Nat) : Nat.testBit 2 i = decide (i = 1) := by
  rcases Nat.lt_or_ge i 8 with h | h
  · interval_cases i <;> decide
  · have h2 : (2 : Nat) < 2 ^ i :=
      lt_of_lt_of_le (by norm_num) (Nat.pow_le_pow_right (by norm_num) h)
    simp [Nat.testBit_lt_two_pow h2]
    omega

/-- Bits of the Negative-flag mask `0b10000000`. -/
lemma testBit_const_128 (i : Nat) : Nat.testBit 128 i = decide (i = 7) := by
  rcases Nat.lt_or_ge i 8 with h | h
  · interval_cases i <;> decide
  · have h2 : (128 : Nat) < 2 ^ i :=
      lt_of_lt_of_le (by norm_num) (Nat.pow_le_pow_right (by norm_num) h)
    simp [Nat.testBit_lt_two_pow h2]
    omega

/-- Bits of the Negative-clearing mask `0b01111111`. -/
lemma testBit_const_127 (i : Nat) : Nat.testBit 127 i = decide (i < 7) := by
  rcases Nat.lt_or_ge i 8 with h | h
  · interval_cases i <;> decide
  · have h2 : (127 : Nat) < 2 ^ i :=
      lt_of_lt_of_le (by norm_num) (Nat.pow_le_pow_right (by norm_num) h)
    simp [Nat.testBit_lt_two_pow h2]
    omega

/-- Bits of the Zero-clearing mask `0b11111101`. -/
lemma testBit_const_253 (i : Nat) :
    Nat.testBit 253 i = (decide (i < 8) && !decide (i = 1)) := by
  rcases Nat.lt_or_ge i 8 with h | h
  · interval_cases i <;> decide
  · have h2 : (253 : Nat) < 2 ^ i :=
      lt_of_lt_of_le (by norm_num) (Nat.pow_le_pow_right (by norm_num) h)
    simp [Nat.testBit_lt_two_pow h2]
    omega

/-- Bits of the low-byte mask `0xff`. -/
lemma testBit_const_255 (i : Nat) : Nat.testBit 255 i = decide (i < 8) := by
  rcases Nat.lt_or_ge i 8 with h | h
  · interval_cases i <;> decide
  · have h2 : (255 : Nat) < 2 ^ i :=
      lt_of_lt_of_le (by norm_num) (Nat.pow_le_pow_right (by norm_num) h)
    simp [Nat.testBit_lt_two_pow h2]
    omega

/-- Reduction of `bind` on a successful `EmuM` computation. -/
@[simp] lemma emu_bind_ok {α β : Type} (a : α) (f : α → EmuM β) :
    (Except.ok a : EmuM α) >>= f = f a := rfl

/-- Reduction of `bind` on a panicking `EmuM` computation. -/
@[simp] lemma emu_bind_error {α β : Type} (e : PanicKind) (f : α → EmuM β) :
    (Except.error e : EmuM α) >>= f = Except.error e := rfl

/-- Reduction of `map` on a successful `EmuM` computation. -/
@[simp] lemma emu_map_ok {α β : Type} (f : α → β) (a : α) :
    f <$> (Except.ok a : EmuM α) = Except.ok (f a) := rfl

/-- Reduction of `map` on a panicking `EmuM` computation. -/
@[simp] lemma emu_map_error {α β : Type} (f : α → β) (e : PanicKind) :
    f <$> (Except.error e : EmuM α) = Except.error e := rfl

/-- Complete bit-level description of the flag update: bit 1 becomes the
Zero test, bit 7 becomes the Negative test, bits 0, 2-6 are preserved, and
bits at position 8 and above are cleared (every path through the source
applies at least one 8-bit mask). -/
lemma update_flags_testBit (s v i : Nat) :
    (update_zero_and_negative_flags s v).testBit i =
      if i = 1 then decide (v = 0)
      else if i = 7 then decide (v &&& 128 ≠ 0)
      else (s.testBit i && decide (i < 8)) := by
  by_cases hz : v = 0 <;> by_cases hn : v &&& 128 = 0 <;>
    simp only [update_zero_and_negative_flags, hz, hn, if_true, if_false, ne_eq,
      not_true_eq_false, not_false_eq_true, ite_true, ite_false] <;>
    by_cases h1 : i = 1 <;> by_cases h7 : i = 7 <;>
    simp [h1, h7, Nat.testBit_or, Nat.testBit_and,
      testBit_const_two, testBit_const_128, testBit_const_127, testBit_const_253, hz, hn] <;>
    first
      | omega
      | (congr 1; exact decide_eq_decide.mpr (by omega))

/-! ## Claim C1 -/

/-- Claim C1: for every 8-bit result value `v` and prior status byte `s`, the
flag update sets the Zero bit (bit 1, mask 0x02) iff `v = 0`, sets the
Negative bit (bit 7, mask 0x80) iff `v &&& 0x80 ≠ 0`, and leaves every other
bit of the status byte as it was in `s`. -/
theorem update_flags_zero_negative_exact (s v : Nat) (hs : s < 256) (hv : v < 256) :
    ((update_zero_and_negative_flags s v).testBit 1 ↔ v = 0) ∧
    ((update_zero_and_negative_flags s v).testBit 7 ↔ v &&& 0x80 ≠ 0) ∧
    (∀ i, i ≠ 1 → i ≠ 7 →
      (update_zero_and_negative_flags s v).testBit i = s.testBit i) := by
  refine ⟨?_, ?_, ?_⟩
  · rw [update_flags_testBit]
    simp
  · rw [update_flags_testBit]
    simp
  · intro i h1 h7
    rw [update_flags_testBit, if_neg h1, if_neg h7]
    rcases Nat.lt_or_ge i 8 with h8 | h8
    · simp [h8]
    · have h256 : (256 : Nat) ≤ 2 ^ i := by
        calc (256 : Nat) = 2 ^ 8 := by norm_num
        _ ≤ 2 ^ i := Nat.pow_le_pow_right (by norm_num) h8
      have hsb : s.testBit i = false :=
        Nat.testBit_lt_two_pow (lt_of_lt_of_le hs h256)
      simp [hsb, show ¬ i < 8 from by omega]

/-- Witness for claim C1 at the concrete status byte 0x55 and result 0x80. -/
theorem update_flags_zero_negative_exact_witness :
    (0x55 : Nat) < 256 ∧ (0x80 : Nat) < 256 ∧
    (((update_zero_and_negative_flags 0x55 0x80).testBit 1 ↔ (0x80 : Nat) = 0) ∧
     ((update_zero_and_negative_flags 0x55 0x80).testBit 7 ↔ (0x80 : Nat) &&& 0x80 ≠ 0) ∧
     (∀ i, i ≠ 1 → i ≠ 7 →
       (update_zero_and_negative_flags 0x55 0x80).testBit i = Nat.testBit 0x55 i)) :=
  ⟨by decide, by decide,
    update_flags_zero_negative_exact 0x55 0x80 (by decide) (by decide)⟩

/-! ## Claim C2 -/

/-- Claim C2 (failing input): the opcode registry records `takes_bytes = 2`
for `LDA` with Absolute addressing (opcode 0xAD), although the Absolute mode
reads a two-byte operand.  One loop iteration on `LDA $8005` at `0x8000`
therefore leaves the program counter at `0x8002` — still pointing into the
operand — instead of `0x8003`, the byte following the instruction. -/
theorem lda_absolute_pc_advance :
    (find_opcode_by_instruction LDA_ABS).map OpCode.takes_bytes = some 2 ∧
    stepPC (CPU.step ldaAbsState) = some 0x8002 :=
  ⟨rfl, rfl⟩

/-! ## Claim C3 -/

/-- Counterexample for claim C3: on a machine whose fetched opcode byte
(`0x02`) has no registry entry, `run` does not produce any error result value
of its own — the source's `run` returns `()` and has no error type at all;
instead the `.unwrap()` on the failed registry lookup raises a Rust panic
(modelled as the `unwrapNone` fault), which tears down the host process
rather than being returned to the caller. -/
theorem run_unknown_opcode_cx :
    unknownOpcodeState.run 1 = Except.error PanicKind.unwrapNone :=
  rfl

/-- Claim C3 (amended): for every machine state whose program counter points
at a byte with no entry in the opcode registry, every run with at least one
loop iteration left aborts with the `unwrapNone` panic — the `Option::unwrap`
on the failed lookup in `CPU::run`.  The fault is distinguishable from a
normal halt and the byte is not silently skipped, but in the source it is a
process-terminating panic, not an error result returned from `run`. -/
theorem run_unknown_opcode_unwrap_panic (cpu : CPU) (b fuel : Nat)
    (hb : cpu.mem_read cpu.program_counter = Except.ok b)
    (hop : find_opcode_by_instruction b = none)
    (hf : 0 < fuel) :
    cpu.run fuel = Except.error PanicKind.unwrapNone := by
  obtain ⟨f, rfl⟩ : ∃ f, fuel = f + 1 := ⟨fuel - 1, by omega⟩
  have hstep : cpu.step = Except.error PanicKind.unwrapNone := by
    unfold CPU.step
    rw [hb]
    simp [hop]
  simp [CPU.run, hstep]

/-- Witness for the amended claim C3 on the concrete machine whose memory is
filled with the unregistered opcode byte `0x02`. -/
theorem run_unknown_opcode_unwrap_panic_witness :
    unknownOpcodeState.mem_read unknownOpcodeState.program_counter = Except.ok 0x02 ∧
    find_opcode_by_instruction 0x02 = none ∧ 0 < 1 ∧
    unknownOpcodeState.run 1 = Except.error PanicKind.unwrapNone :=
  ⟨rfl, rfl, by decide,
    run_unknown_opcode_unwrap_panic unknownOpcodeState 0x02 1 rfl rfl (by decide)⟩

/-! ## Claim C4 -/

/-- Recomposing the two bytes stored by `mem_write_u16` with the
`(hi <<< 8) ||| lo` combination used by `mem_read_u16` gives back the
original 16-bit value. -/
lemma byte_recompose (v : Nat) (hv : v < 65536) :
    ((((v >>> 8) % 256) <<< 8) ||| (v &&& 0xff)) = v := by
  have hsh : v >>> 8 < 256 := by
    rw [Nat.shiftRight_eq_div_pow]
    omega
  rw [Nat.mod_eq_of_lt hsh]
  apply Nat.eq_of_testBit_eq
  intro i
  simp only [Nat.testBit_or, Nat.testBit_and, Nat.testBit_shiftLeft, Nat.testBit_shiftRight,
    testBit_const_255]
  by_cases h8 : 8 ≤ i
  · have hi8 : 8 + (i - 8) = i := by omega
    simp [h8, hi8, show ¬ i < 8 from by omega]
  · simp [h8, show i < 8 from by omega]

/-- Claim C4: for every address with both `addr` and `addr + 1` in memory
range and every 16-bit value `v`, `mem_write_u16 addr v` succeeds, stores the
low byte `v % 256` at `addr` and the high byte `v / 256` at `addr + 1`, and a
subsequent `mem_read_u16 addr` returns exactly `v`. -/
theorem write16_read16_roundtrip (cpu : CPU) (addr v : Nat)
    (haddr : addr + 1 < MEM_SIZE) (hv : v < 65536) :
    ∃ c : CPU, cpu.mem_write_u16 addr v = Except.ok c ∧
      c.memory addr = v % 256 ∧
      c.memory (addr + 1) = v / 256 ∧
      c.mem_read_u16 addr = Except.ok v := by
  have h0 : addr < MEM_SIZE := by omega
  have hne : ¬ addr = addr + 1 := by omega
  have hlo : v &&& 0xff = v % 256 := by
    have h := Nat.and_pow_two_sub_one_eq_mod v 8
    norm_num at h
    exact h
  have hhi : (v >>> 8) % 256 = v / 256 := by
    rw [Nat.shiftRight_eq_div_pow]
    norm_num
    omega
  refine ⟨{ cpu with memory := fun a =>
      if a = addr + 1 then (v >>> 8) % 256
      else if a = addr then v &&& 0xff else cpu.memory a }, ?_, ?_, ?_, ?_⟩
  · simp only [CPU.mem_write_u16, CPU.mem_write, if_pos h0, if_pos haddr, emu_bind_ok]
  · simp [hne, hlo]
  · simp [hhi]
  · simp only [CPU.mem_read_u16, CPU.mem_read, if_pos h0, if_pos haddr, emu_bind_ok]
    simp [hne, byte_recompose v hv]
    rfl

/-- Witness for claim C4 at address 0x10 and value 0xBEEF on a fresh machine. -/
theorem write16_read16_roundtrip_witness :
    (0x10 : Nat) + 1 < MEM_SIZE ∧ (0xBEEF : Nat) < 65536 ∧
    (∃ c : CPU, CPU.new.mem_write_u16 0x10 0xBEEF = Except.ok c ∧
      c.memory 0x10 = 0xBEEF % 256 ∧
      c.memory (0x10 + 1) = 0xBEEF / 256 ∧
      c.mem_read_u16 0x10 = Except.ok 0xBEEF) :=
  ⟨by decide, by decide,
    write16_read16_roundtrip CPU.new 0x10 0xBEEF (by decide) (by decide)⟩

/-! ## Claim C5 -/

/-- Claim C5: executing the TAY opcode copies the accumulator into index-Y,
updates the Zero/Negative flags from the current value of index-X (the source
passes `self.register_x`, not the fresh index-Y, to the flag update), and
advances the program counter only past the opcode byte itself. -/
theorem tay_copies_a_flags_from_x (cpu : CPU)
    (h : cpu.mem_read cpu.program_counter = Except.ok TAY) :
    cpu.step = Except.ok (StepResult.cont
      { cpu with program_counter := cpu.program_counter + 1
                 register_y := cpu.register_a
                 status := update_zero_and_negative_flags cpu.status cpu.register_x }) := by
  have hpc : cpu.program_counter < MEM_SIZE := by
    by_contra hc
    simp [CPU.mem_read, if_neg hc] at h
  have hmod : (cpu.program_counter + 1) % 65536 = cpu.program_counter + 1 := by
    have hlt : cpu.program_counter < 65535 := by simpa [MEM_SIZE] using hpc
    omega
  unfold CPU.step
  rw [h]
  simp [show find_opcode_by_instruction TAY =
      some ⟨0xA8, "TAY", 1, 2, AddressingMode.NoneAddressing⟩ from rfl,
    CPU.tay, hmod]
  rfl

/-- Witness for claim C5 on a machine whose memory is filled with the TAY
opcode byte and whose registers hold distinct recognizable values. -/
theorem tay_copies_a_flags_from_x_witness :
    tayState.mem_read tayState.program_counter = Except.ok TAY ∧
    tayState.step = Except.ok (StepResult.cont
      { tayState with program_counter := tayState.program_counter + 1
                      register_y := tayState.register_a
                      status := update_zero_and_negative_flags tayState.status tayState.register_x }) :=
  ⟨rfl, tay_copies_a_flags_from_x tayState rfl⟩

/-! ## Claim C6 -/

/-- Claim C6: `reset` zeroes the accumulator, index-X and the status byte,
loads the program counter from the little-endian word at `0xFFFC` (low byte
at `0xFFFC`, high byte at `0xFFFD`), and leaves index-Y and the whole memory
unchanged. -/
theorem reset_zeroes_axs_loads_vector (cpu : CPU) :
    cpu.reset = Except.ok
      { register_a := 0
        status := 0
        program_counter := (cpu.memory 0xFFFD <<< 8) ||| cpu.memory 0xFFFC
        register_x := 0
        register_y := cpu.register_y
        memory := cpu.memory } := by
  unfold CPU.reset CPU.mem_read_u16 CPU.mem_read
  norm_num [MEM_SIZE]

/-! ## Claim C7 -/

/-- Counterexample for claim C7: with the program counter at `0xFFFF` (a
representable `u16` value, but one past the last valid memory index) the
Indirect_X resolver does not return any address — the operand fetch indexes
the memory array out of bounds and panics. -/
theorem indirect_x_pc_top_cx :
    pcAtTopState.get_operand_address AddressingMode.Indirect_X =
      Except.error PanicKind.indexOutOfBounds :=
  rfl

/-- Claim C7 (amended): for every state whose program counter is a valid
memory index (`pc ≤ 0xFFFE`), the Indirect_X resolver forms the zero-page
pointer `p = (byte at pc + X) mod 256` and returns the word whose low byte is
read at `p` and whose high byte is read at `(p + 1) mod 256`, wrapping within
the zero page. -/
theorem indirect_x_zero_page_wrap (cpu : CPU)
    (h : cpu.program_counter < MEM_SIZE) :
    cpu.get_operand_address AddressingMode.Indirect_X =
      Except.ok
        ((cpu.memory (((cpu.memory cpu.program_counter + cpu.register_x) % 256 + 1) % 256) <<< 8) |||
          cpu.memory ((cpu.memory cpu.program_counter + cpu.register_x) % 256)) := by
  have h1 : (cpu.memory cpu.program_counter + cpu.register_x) % 256 < MEM_SIZE := by
    have hm : (cpu.memory cpu.program_counter + cpu.register_x) % 256 < 256 :=
      Nat.mod_lt _ (by norm_num)
    simp only [MEM_SIZE]
    omega
  have h2 : ((cpu.memory cpu.program_counter + cpu.register_x) % 256 + 1) % 256 < MEM_SIZE := by
    have hm : ((cpu.memory cpu.program_counter + cpu.register_x) % 256 + 1) % 256 < 256 :=
      Nat.mod_lt _ (by norm_num)
    simp only [MEM_SIZE]
    omega
  unfold CPU.get_operand_address CPU.mem_read
  rw [if_pos h]
  simp only [emu_bind_ok]
  simp only [if_pos h1, if_pos h2, emu_bind_ok]
  rfl

/-- Witness for the amended claim C7 on a fresh machine (program counter 0). -/
theorem indirect_x_zero_page_wrap_witness :
    CPU.new.program_counter < MEM_SIZE ∧
    CPU.new.get_operand_address AddressingMode.Indirect_X =
      Except.ok
        ((CPU.new.memory (((CPU.new.memory CPU.new.program_counter + CPU.new.register_x) % 256 + 1) % 256) <<< 8) |||
          CPU.new.memory ((CPU.new.memory CPU.new.program_counter + CPU.new.register_x) % 256)) :=
  ⟨by decide, indirect_x_zero_page_wrap CPU.new (by decide)⟩

/-! ## Claim C8 -/

/-- Claim C8: reads and writes succeed at every address in
`0x0000 ..= 0xFFFE`, while both a read and a write at `0xFFFF` fault with an
index-out-of-bounds panic, because the memory array holds `0xFFFF` bytes —
one short of the full 64KB address space. -/
theorem memory_total_below_top (cpu : CPU) (addr b : Nat) (h : addr ≤ 0xFFFE) :
    (cpu.mem_read addr).isOk = true ∧
    (cpu.mem_write addr b).isOk = true ∧
    cpu.mem_read 0xFFFF = Except.error PanicKind.indexOutOfBounds ∧
    cpu.mem_write 0xFFFF b = Except.error PanicKind.indexOutOfBounds := by
  have hlt : addr < MEM_SIZE := by
    simp only [MEM_SIZE]
    omega
  refine ⟨?_, ?_, ?_, ?_⟩
  · simp [CPU.mem_read, if_pos hlt, Except.isOk, Except.toBool]
  · simp [CPU.mem_write, if_pos hlt, Except.isOk, Except.toBool]
  · simp [CPU.mem_read, MEM_SIZE]
  · simp [CPU.mem_write, MEM_SIZE]

/-- Witness for claim C8 at address 0 with byte value 7. -/
theorem memory_total_below_top_witness :
    (0 : Nat) ≤ 0xFFFE ∧
    ((CPU.new.mem_read 0).isOk = true ∧
     (CPU.new.mem_write 0 7).isOk = true ∧
     CPU.new.mem_read 0xFFFF = Except.error PanicKind.indexOutOfBounds ∧
     CPU.new.mem_write 0xFFFF 7 = Except.error PanicKind.indexOutOfBounds) :=
  ⟨by decide, memory_total_below_top CPU.new 0 7 (by decide)⟩

/-! ## Claim C9 -/

/-- Claim C9: on a freshly constructed machine, `load_and_run` on the program
`[LDA_IMMEDIATE, 0xFF, TAX, INX, INX, BRK]` halts normally (at the BRK
opcode, well within the 16-iteration fuel bound) with index-X equal to 1:
the first INX wraps index-X from 0xFF to 0x00 and the second leaves 0x01. -/
theorem inx_wraps_through_zero :
    haltedRegX (CPU.new.load_and_run [LDA_IMMEDIATE, 0xFF, TAX, INX, INX, BRK] 16) =
      some 1 :=
  rfl

/-! ## Claim C10 -/

/-- Claim C10: whenever `CPU::sta` succeeds, it leaves the accumulator, both
index registers, the status byte (so in particular the Zero and Negative
flags) and the program counter unchanged, and the final memory agrees with
the initial memory everywhere except the single resolved effective address,
which now holds the accumulator. -/
theorem sta_writes_one_byte_frame (cpu : CPU) (mode : AddressingMode) (c : CPU)
    (h : cpu.sta mode = Except.ok c) :
    c.register_a = cpu.register_a ∧
    c.register_x = cpu.register_x ∧
    c.register_y = cpu.register_y ∧
    c.status = cpu.status ∧
    c.program_counter = cpu.program_counter ∧
    ∃ addr, cpu.get_operand_address mode = Except.ok addr ∧
      ∀ a, c.memory a = if a = addr then cpu.register_a else cpu.memory a := by
  unfold CPU.sta at h
  cases hga : cpu.get_operand_address mode with
  | error e =>
      rw [hga] at h
      simp at h
  | ok addr =>
      rw [hga] at h
      simp only [emu_bind_ok] at h
      unfold CPU.mem_write at h
      by_cases hlt : addr < MEM_SIZE
      · rw [if_pos hlt] at h
        cases h
        refine ⟨rfl, rfl, rfl, rfl, rfl, addr, rfl, ?_⟩
        intro a
        rfl
      · rw [if_neg hlt] at h
        simp at h

/-- Witness for claim C10: `sta` with zero-page addressing on a fresh machine
stores the accumulator at address 0. -/
theorem sta_writes_one_byte_frame_witness :
    CPU.new.sta AddressingMode.ZeroPage = Except.ok staZpResult ∧
    (staZpResult.register_a = CPU.new.register_a ∧
     staZpResult.register_x = CPU.new.register_x ∧
     staZpResult.register_y = CPU.new.register_y ∧
     staZpResult.status = CPU.new.status ∧
     staZpResult.program_counter = CPU.new.program_counter ∧
     ∃ addr, CPU.new.get_operand_address AddressingMode.ZeroPage = Except.ok addr ∧
       ∀ a, staZpResult.memory a = if a = addr then CPU.new.register_a else CPU.new.memory a) :=
  ⟨rfl, sta_writes_one_byte_frame CPU.new AddressingMode.ZeroPage staZpResult rfl⟩
